import Mathlib

/-
Verification of the participant/key-issuance subsystem of the certificate
generator service (src/main.py).  The SQLite database is modelled as an
explicit record of batches and participant rows; the random key stream of
`generar_clave_unica` is an explicit list of candidate keys; HTTP errors are
(status, detail) pairs; the SMTP transport is modelled by boolean oracles for
connection, login and per-recipient send outcomes, together with an event
trace recording connects, sends and quits.
-/

namespace Certificados

/-- An HTTP error as raised by `HTTPException(status_code, detail)`.  The
Python code appends the text of a wrapped exception to some details; that
suffix is abstracted away and only the fixed prefix is kept. -/
structure HErr where
  status : Nat
  detail : String
deriving DecidableEq, Repr

/-- A row of the `participantes` table (src/main.py:50-58).  `nombre` is an
`Option` because a missing spreadsheet cell arrives as NaN, which the sqlite3
binding stores as NULL; the NOT NULL constraint is enforced at insert time. -/
structure Participante where
  id : Nat
  lote_id : String
  nombre : Option String
  correo : String
  clave : String
deriving DecidableEq, Repr

/-- The persistent store: the `lotes` table (ids only, timestamps abstracted),
the `participantes` table, and the next AUTOINCREMENT id. -/
structure DB where
  lotes : List String
  participantes : List Participante
  nextId : Nat
deriving DecidableEq, Repr

/-- The set of persisted access keys, as consulted by the key generator. -/
def DB.claves (db : DB) : List String :=
  db.participantes.map (fun p => p.clave)

/-- A freshly initialised empty database (init_db, src/main.py:40-61). -/
def dbVacia : DB := ⟨[], [], 1⟩

/-- Embeds `generar_clave_unica` (src/main.py:63-70).  The unbounded stream of
random candidate draws is modelled as an explicit list; the loop returns the
first candidate absent from the persisted key set, together with the unused
remainder of the stream.  `none` models non-termination (stream exhausted). -/
def generar_clave_unica (claves : List String) :
    List String → Option (String × List String)
  | [] => none
  | c :: rest => if c ∈ claves then generar_clave_unica claves rest else some (c, rest)

/-- One spreadsheet row as produced by `df.iterrows()`: a `nombre` cell
(`none` models a missing cell, read as NaN) and a `correo` cell. -/
structure Row where
  nombre : Option String
  correo : String
deriving DecidableEq, Repr

/-- One tuple staged into `participantes_para_insertar` (src/main.py:195-198). -/
structure Staged where
  lote_id : String
  nombre : Option String
  correo : String
  clave : String
deriving DecidableEq, Repr

/-- The staging loop of `subir_participantes` (src/main.py:196-198): for each
row a key is generated against the persisted key set `claves`, which does NOT
grow as rows are staged, since the staged tuples live in a Python list and are
not yet inserted. -/
def stageAll (loteId : String) (claves : List String) :
    List Row → List String → Option (List Staged × List String)
  | [], stream => some ([], stream)
  | r :: rs, stream =>
    match generar_clave_unica claves stream with
    | none => none
    | some (k, rest) =>
      match stageAll loteId claves rs rest with
      | none => none
      | some (staged, rest2) => some (⟨loteId, r.nombre, r.correo, k⟩ :: staged, rest2)

/-- Embeds the constraint checking performed by `cursor.executemany` on the
`participantes` table (src/main.py:200-203): each row must have a non-NULL
`nombre`, and its `clave` must differ from every persisted key and every key
inserted earlier in the same statement (UNIQUE constraint).  Returns `false`
exactly when the statement raises `IntegrityError`. -/
def insertRows (existentes : List String) : List Staged → Bool
  | [] => true
  | s :: rest =>
    if s.nombre.isNone then false
    else if s.clave ∈ existentes then false
    else insertRows (s.clave :: existentes) rest

/-- The committed state after a successful import transaction: one new batch
row and the staged participants with AUTOINCREMENT ids. -/
def commitStaged (db : DB) (loteId : String) (staged : List Staged) : DB :=
  { lotes := db.lotes ++ [loteId]
    participantes := db.participantes ++
      (List.enumFrom db.nextId staged).map
        (fun x => ⟨x.1, x.2.lote_id, x.2.nombre, x.2.correo, x.2.clave⟩)
    nextId := db.nextId + staged.length }

/-- The success payload of `subir_participantes` (src/main.py:207-211). -/
structure ImportOk where
  message : String
  lote_id : String
  participantes_agregados : Nat
deriving DecidableEq, Repr

/-- The filename suffix check that opens `subir_participantes`
(src/main.py:182), over the uploaded filename taken as a character
sequence: true exactly when the name ends in .xlsx. -/
def termina_en_xlsx (filename : List Char) : Bool :=
  List.isSuffixOf ['.', 'x', 'l', 's', 'x'] filename

def msgImportOk : String := "Datos de participantes cargados exitosamente."

def msgNoXlsx : String := "El archivo debe ser un .xlsx"

def msgExcelFail : String := "No se pudo procesar el archivo Excel"

/-- Embeds `subir_participantes` (src/main.py:175-213).  `hayNombre` and
`hayCorreo` are the outcomes of the column-presence check on the parsed
dataframe; `loteId` is the freshly drawn uuid; `stream` is the random key
stream.  The filename check happens OUTSIDE the try block and keeps its 400
status; every exception inside the try block, including the
HTTPException(400) for missing columns, is caught by the blanket handler and
re-raised as a 500.  The transaction commits only on full success, so every
error path returns the store unchanged.  `none` models a non-terminating key
generation loop. -/
def subir_participantes (filename : List Char) (loteId : String)
    (hayNombre hayCorreo : Bool)
    (rows : List Row) (stream : List String) (db : DB) :
    Option (Except HErr ImportOk × DB) :=
  if !(termina_en_xlsx filename) then
    some (.error ⟨400, msgNoXlsx⟩, db)
  else if !(hayNombre && hayCorreo) then
    some (.error ⟨500, msgExcelFail⟩, db)
  else
    match stageAll loteId db.claves rows stream with
    | none => none
    | some (staged, _) =>
      if insertRows db.claves staged then
        some (.ok ⟨msgImportOk, loteId, staged.length⟩, commitStaged db loteId staged)
      else
        some (.error ⟨500, msgExcelFail⟩, db)

/-- The success payload of `enviar_correos` (src/main.py:278-283). -/
structure Reporte where
  lote_id : String
  enviados_exitosamente : Nat
  correos_fallidos : List String
deriving DecidableEq, Repr

/-- Observable transport events of one dispatch call: the SMTP connection
being established, a delivery attempt to an address with its outcome, and
`server.quit`. -/
inductive Ev where
  | connect : Ev
  | send : String → Bool → Ev
  | quit : Ev
deriving DecidableEq, Repr

/-- Number of times the session was closed in a trace. -/
def quitCount (evs : List Ev) : Nat :=
  evs.countP (fun e => match e with | .quit => true | _ => false)

/-- The per-recipient loop of `enviar_correos` (src/main.py:251-274): each
send is attempted inside its own try, a success increments
`enviados_count`, a failure appends the address to `fallidos`, and the loop
always continues.  `sendOk i` is the transport outcome for the i-th
recipient; the event accumulator records every attempt. -/
def bucle_envio (sendOk : Nat → Bool) :
    List Participante → Nat → Nat → List String → List Ev →
    Nat × List String × List Ev
  | [], _, enviados, fallidos, evs => (enviados, fallidos, evs)
  | p :: ps, i, enviados, fallidos, evs =>
    if sendOk i then
      bucle_envio sendOk ps (i + 1) (enviados + 1) fallidos (evs ++ [.send p.correo true])
    else
      bucle_envio sendOk ps (i + 1) enviados (fallidos ++ [p.correo]) (evs ++ [.send p.correo false])

/-- The SELECT of `enviar_correos` (src/main.py:227): the participants of a
batch, in store iteration order. -/
def participantes_de (db : DB) (loteId : String) : List Participante :=
  db.participantes.filter (fun p => p.lote_id == loteId)

def msgLoteNoEncontrado : String := "Lote no encontrado o sin participantes."

def msgConfigIncompleta : String :=
  "La configuracion del servidor de correo esta incompleta en el archivo .env"

def msgErrorConexion : String := "Error al conectar con el servidor de correo"

/-- Embeds `enviar_correos` (src/main.py:215-285).  The participants of the
batch are read first; if none exist the call fails with 404 before any SMTP
work.  `configOk` is the completeness check of the .env settings; `conectaOk`
models the SMTP constructor succeeding (connection established); `loginOk`
models starttls plus login succeeding after the connection is open.  There is
no finally block in the source: when login fails after the connection was
opened, the except branch raises the 500 and `server.quit` is never reached,
so the trace of that path contains a connect and no quit. -/
def enviar_correos (loteId : String) (db : DB) (configOk conectaOk loginOk : Bool)
    (sendOk : Nat → Bool) : Except HErr Reporte × List Ev :=
  let ps := participantes_de db loteId
  if ps.isEmpty then (.error ⟨404, msgLoteNoEncontrado⟩, [])
  else if !configOk then (.error ⟨500, msgConfigIncompleta⟩, [])
  else if !conectaOk then (.error ⟨500, msgErrorConexion⟩, [])
  else if !loginOk then (.error ⟨500, msgErrorConexion⟩, [Ev.connect])
  else
    let r := bucle_envio sendOk ps 0 0 [] []
    (.ok ⟨loteId, r.1, r.2.1⟩, Ev.connect :: r.2.2 ++ [Ev.quit])

/-- A filename ending in .xlsx, used in concrete instances. -/
def fnXlsx : List Char := ['p', '.', 'x', 'l', 's', 'x']

/-- A filename not ending in .xlsx, used in concrete instances. -/
def fnTxt : List Char := ['p', '.', 't', 'x', 't']

def rowAna : Row := ⟨some "Ana", "ana@mail.com"⟩

def rowBeto : Row := ⟨some "Beto", "beto@mail.com"⟩

def rowSinNombre : Row := ⟨none, "carla@mail.com"⟩

def pAna : Participante := ⟨1, "L1", some "Ana", "ana@mail.com", "K1AAAAAA"⟩

def pBeto : Participante := ⟨2, "L1", some "Beto", "beto@mail.com", "K2BBBBBB"⟩

def pCarla : Participante := ⟨3, "L1", some "Carla", "carla@mail.com", "K3CCCCCC"⟩

/-- A store holding one batch L1 with three participants. -/
def dbL1 : DB := ⟨["L1"], [pAna, pBeto, pCarla], 4⟩

/-- A generated key is never one of the persisted keys it was checked
against. -/
theorem generar_clave_not_mem (claves : List String) (stream : List String)
    (k : String) (rest : List String)
    (h : generar_clave_unica claves stream = some (k, rest)) : k ∉ claves := by
  induction stream with
  | nil => simp [generar_clave_unica] at h
  | cons c s ih =>
    by_cases hc : c ∈ claves
    · exact ih (by simpa [generar_clave_unica, hc] using h)
    · simp [generar_clave_unica, hc] at h
      exact h.1 ▸ hc

/-- When the head candidate is fresh the generator returns it at once. -/
theorem generar_clave_head (claves : List String) (c : String) (s : List String)
    (hc : c ∉ claves) : generar_clave_unica claves (c :: s) = some (c, s) := by
  simp [generar_clave_unica, hc]

/-- Staging preserves the sequence of nombre cells. -/
theorem stageAll_map_nombre (loteId : String) (claves : List String)
    (rows : List Row) (stream : List String) (staged : List Staged)
    (rest : List String)
    (h : stageAll loteId claves rows stream = some (staged, rest)) :
    staged.map (fun t => t.nombre) = rows.map (fun r => r.nombre) := by
  induction rows generalizing stream staged rest with
  | nil =>
    simp [stageAll] at h
    simp [h.1]
  | cons r rs ih =>
    simp only [stageAll] at h
    split at h
    · exact absurd h (by simp)
    · rename_i k s1 hg
      split at h
      · exact absurd h (by simp)
      · rename_i staged2 rest2 hs
        simp only [Option.some.injEq, Prod.mk.injEq] at h
        obtain ⟨h1, _⟩ := h
        subst h1
        simp [ih s1 staged2 rest2 hs]

/-- Every staged tuple carries the lote id of the batch being imported. -/
theorem stageAll_lote (loteId : String) (claves : List String)
    (rows : List Row) (stream : List String) (staged : List Staged)
    (rest : List String)
    (h : stageAll loteId claves rows stream = some (staged, rest)) :
    ∀ t ∈ staged, t.lote_id = loteId := by
  induction rows generalizing stream staged rest with
  | nil =>
    simp [stageAll] at h
    simp [h.1]
  | cons r rs ih =>
    simp only [stageAll] at h
    split at h
    · exact absurd h (by simp)
    · rename_i k s1 hg
      split at h
      · exact absurd h (by simp)
      · rename_i staged2 rest2 hs
        simp only [Option.some.injEq, Prod.mk.injEq] at h
        obtain ⟨h1, _⟩ := h
        subst h1
        intro t ht
        rcases List.mem_cons.mp ht with h | h
        · simp [h]
        · exact ih s1 staged2 rest2 hs t h

/-- Every key staged by the loop is fresh with respect to the persisted key
set the generator consulted. -/
theorem stageAll_claves_fresh (loteId : String) (claves : List String)
    (rows : List Row) (stream : List String) (staged : List Staged)
    (rest : List String)
    (h : stageAll loteId claves rows stream = some (staged, rest)) :
    ∀ t ∈ staged, t.clave ∉ claves := by
  induction rows generalizing stream staged rest with
  | nil =>
    simp [stageAll] at h
    simp [h.1]
  | cons r rs ih =>
    simp only [stageAll] at h
    split at h
    · exact absurd h (by simp)
    · rename_i k s1 hg
      split at h
      · exact absurd h (by simp)
      · rename_i staged2 rest2 hs
        simp only [Option.some.injEq, Prod.mk.injEq] at h
        obtain ⟨h1, _⟩ := h
        subst h1
        intro t ht
        rcases List.mem_cons.mp ht with h | h
        · subst h; exact generar_clave_not_mem claves stream k s1 hg
        · exact ih s1 staged2 rest2 hs t h

/-- Staging produces one tuple per input row. -/
theorem stageAll_length (loteId : String) (claves : List String)
    (rows : List Row) (stream : List String) (staged : List Staged)
    (rest : List String)
    (h : stageAll loteId claves rows stream = some (staged, rest)) :
    staged.length = rows.length := by
  have := stageAll_map_nombre loteId claves rows stream staged rest h
  have := congrArg List.length this
  simpa using this

/-- On a stream of candidates that are all fresh, staging succeeds and the
staged keys are exactly the first `rows.length` candidates of the stream. -/
theorem stageAll_fresh_stream (loteId : String) (claves : List String)
    (rows : List Row) (stream : List String)
    (hfresh : ∀ c ∈ stream, c ∉ claves)
    (hlen : rows.length ≤ stream.length) :
    ∃ staged, stageAll loteId claves rows stream =
        some (staged, stream.drop rows.length) ∧
      staged.map (fun t => t.clave) = stream.take rows.length := by
  induction rows generalizing stream with
  | nil => exact ⟨[], by simp [stageAll], by simp⟩
  | cons r rs ih =>
    cases stream with
    | nil => simp at hlen
    | cons c s =>
      have hc : c ∉ claves := hfresh c (by simp)
      obtain ⟨staged, hst, hkeys⟩ :=
        ih s (fun x hx => hfresh x (by simp [hx])) (by simpa using hlen)
      refine ⟨⟨loteId, r.nombre, r.correo, c⟩ :: staged, ?_, by simp [hkeys]⟩
      simp [stageAll, generar_clave_head claves c s hc, hst]

/-- The executemany statement succeeds exactly when every staged row has a
name, the staged keys are pairwise distinct, and none of them collides with a
persisted key. -/
theorem insertRows_true_iff (existentes : List String) (staged : List Staged) :
    insertRows existentes staged = true ↔
      (∀ t ∈ staged, t.nombre.isSome = true) ∧
        (staged.map (fun t => t.clave)).Nodup ∧
        ∀ t ∈ staged, t.clave ∉ existentes := by
  induction staged generalizing existentes with
  | nil => simp [insertRows]
  | cons s rest ih =>
    by_cases hn : s.nombre.isNone
    · have hnone := Option.isNone_iff_eq_none.mp hn
      have hfalse : insertRows existentes (s :: rest) = false := by
        simp [insertRows, hn]
      rw [hfalse]
      simp only [Bool.false_eq_true, false_iff]
      rintro ⟨h1, _, _⟩
      have := h1 s (by simp)
      rw [hnone] at this
      simp at this
    · by_cases hm : s.clave ∈ existentes
      · have hfalse : insertRows existentes (s :: rest) = false := by
          simp [insertRows, hn, hm]
        rw [hfalse]
        simp only [Bool.false_eq_true, false_iff]
        rintro ⟨_, _, h3⟩
        exact (h3 s (by simp)) hm
      · have hstep : insertRows existentes (s :: rest) =
            insertRows (s.clave :: existentes) rest := by
          simp [insertRows, hn, hm]
        rw [hstep, ih (s.clave :: existentes)]
        constructor
        · rintro ⟨h1, h2, h3⟩
          refine ⟨?_, ?_, ?_⟩
          · intro t ht
            rcases List.mem_cons.mp ht with h | h
            · subst h; simpa [Option.isSome_iff_ne_none] using hn
            · exact h1 t h
          · refine List.nodup_cons.mpr ⟨?_, h2⟩
            intro hmem
            obtain ⟨t, ht, htc⟩ := List.mem_map.mp hmem
            exact (h3 t ht) (by simp [htc])
          · intro t ht
            rcases List.mem_cons.mp ht with h | h
            · subst h; exact hm
            · intro habs
              exact (h3 t h) (by simp [habs])
        · rintro ⟨h1, h2, h3⟩
          obtain ⟨hnotin, hrest⟩ := List.nodup_cons.mp h2
          refine ⟨fun t ht => h1 t (by simp [ht]), hrest, ?_⟩
          intro t ht hmem
          rcases List.mem_cons.mp hmem with h | h
          · exact hnotin (List.mem_map.mpr ⟨t, ht, h⟩)
          · exact (h3 t (by simp [ht])) h

/-- The keys persisted by a commit are the old keys followed by the staged
keys. -/
theorem commitStaged_claves (db : DB) (loteId : String) (staged : List Staged) :
    (commitStaged db loteId staged).claves =
      db.claves ++ staged.map (fun t => t.clave) := by
  simp only [commitStaged, DB.claves, List.map_append]
  congr 1
  rw [List.map_map]
  have : ((fun p : Participante => p.clave) ∘
      fun x : Nat × Staged => (⟨x.1, x.2.lote_id, x.2.nombre, x.2.correo, x.2.clave⟩ :
        Participante)) = (fun t : Staged => t.clave) ∘ Prod.snd := rfl
  rw [this, ← List.map_map, List.enumFrom_map_snd]

/-- The participants persisted by a commit are the old participants followed
by the staged rows fitted with fresh ids. -/
theorem commitStaged_participantes (db : DB) (loteId : String)
    (staged : List Staged) :
    (commitStaged db loteId staged).participantes =
      db.participantes ++ (List.enumFrom db.nextId staged).map
        (fun x => ⟨x.1, x.2.lote_id, x.2.nombre, x.2.correo, x.2.clave⟩) := rfl

/-- Closed form of the dispatch loop: starting from accumulators, the loop
adds one success per positive send outcome, appends the address of every
failed send in order, and records one send event per participant. -/
theorem bucle_envio_spec (sendOk : Nat → Bool) (ps : List Participante)
    (i enviados : Nat) (fallidos : List String) (evs : List Ev) :
    bucle_envio sendOk ps i enviados fallidos evs =
      (enviados + (List.enumFrom i ps).countP (fun x => sendOk x.1),
       fallidos ++ ((List.enumFrom i ps).filter (fun x => !sendOk x.1)).map
         (fun x => x.2.correo),
       evs ++ (List.enumFrom i ps).map (fun x => Ev.send x.2.correo (sendOk x.1))) := by
  induction ps generalizing i enviados fallidos evs with
  | nil => simp [bucle_envio]
  | cons p rest ih =>
    cases hs : sendOk i with
    | false =>
      rw [bucle_envio, hs, if_neg (by simp), ih]
      simp [List.enumFrom_cons, List.countP_cons, List.filter_cons, hs,
        List.append_assoc]
    | true =>
      rw [bucle_envio, hs, if_pos rfl, ih]
      simp [List.enumFrom_cons, List.countP_cons, List.filter_cons, hs,
        List.append_assoc]
      omega

/-- A list of send events contains no quit. -/
theorem quitCount_send_events (l : List (Nat × Participante)) (sendOk : Nat → Bool) :
    quitCount (l.map (fun x => Ev.send x.2.correo (sendOk x.1))) = 0 := by
  simp only [quitCount]
  rw [List.countP_eq_zero]
  intro e he
  obtain ⟨x, _, hx⟩ := List.mem_map.mp he
  subst hx
  simp

/-- C10: an import whose uploaded filename does not end in .xlsx is rejected
with an HTTP 400 validation error before the spreadsheet is parsed, and the
participant store is returned completely unchanged regardless of the file
contents. -/
theorem rechazo_extension_400 (filename : List Char) (loteId : String)
    (hayNombre hayCorreo : Bool) (rows : List Row) (stream : List String)
    (db : DB) (h : termina_en_xlsx filename = false) :
    subir_participantes filename loteId hayNombre hayCorreo rows stream db =
      some (.error ⟨400, msgNoXlsx⟩, db) := by
  simp [subir_participantes, h]

/-- Witness for C10 at a concrete non-xlsx filename. -/
theorem rechazo_extension_400_witness :
    subir_participantes fnTxt "L1" true true [rowAna] ["K1AAAAAA"] dbVacia =
      some (.error ⟨400, msgNoXlsx⟩, dbVacia) :=
  rechazo_extension_400 fnTxt "L1" true true [rowAna] ["K1AAAAAA"] dbVacia (by decide)

/-- C8 counterexample: importing a spreadsheet that lacks the required nombre
column is rejected with status 500, not with the 400 a ValidationError
rejection carries, because the HTTPException(400) raised inside the try block
is swallowed by the blanket handler and re-raised as a 500.  The store is
still unchanged. -/
theorem columnas_faltantes_cex :
    subir_participantes fnXlsx "L1" false true [rowAna] [] dbVacia =
      some (.error ⟨500, msgExcelFail⟩, dbVacia) ∧ (500 : Nat) ≠ 400 :=
  ⟨rfl, by decide⟩

/-- C8 amended: an import whose schema lacks a required column is rejected
before any state change, but the error surfaced to the caller is a generic
HTTP 500 wrapping the validation message, not a 400. -/
theorem columnas_faltantes_500 (filename : List Char) (loteId : String)
    (hayNombre hayCorreo : Bool) (rows : List Row) (stream : List String)
    (db : DB) (hfn : termina_en_xlsx filename = true)
    (hcols : (hayNombre && hayCorreo) = false) :
    subir_participantes filename loteId hayNombre hayCorreo rows stream db =
      some (.error ⟨500, msgExcelFail⟩, db) := by
  simp [subir_participantes, hfn, hcols]

/-- Witness for the amended C8 at a concrete input lacking the nombre
column. -/
theorem columnas_faltantes_500_witness :
    subir_participantes fnXlsx "L1" false true [rowAna] [] dbVacia =
      some (.error ⟨500, msgExcelFail⟩, dbVacia) :=
  columnas_faltantes_500 fnXlsx "L1" false true [rowAna] [] dbVacia
    (by decide) (by decide)

/-- C7: the code accepts an import with zero rows: it creates a new batch,
persists zero participants and reports success with count 0, instead of
rejecting the input with an EmptyInputError. -/
theorem lote_vacio_aceptado :
    subir_participantes fnXlsx "L1" true true [] [] dbVacia =
      some (.ok ⟨msgImportOk, "L1", 0⟩, ⟨["L1"], [], 1⟩) := rfl

/-- C2: if any row of the import fails (a missing nombre cell, stored as NULL
and rejected by the NOT NULL constraint), the whole import returns an error
and the store is exactly as before: zero participants of the batch are
persisted. -/
theorem importacion_atomica (filename : List Char) (loteId : String)
    (hayNombre hayCorreo : Bool) (rows : List Row) (stream : List String)
    (db : DB) (res : Except HErr ImportOk) (db' : DB)
    (hbad : ∃ r ∈ rows, r.nombre = none)
    (hrun : subir_participantes filename loteId hayNombre hayCorreo rows stream db =
      some (res, db')) :
    (∃ e, res = Except.error e) ∧ db' = db := by
  unfold subir_participantes at hrun
  split at hrun
  · simp only [Option.some.injEq, Prod.mk.injEq] at hrun
    exact ⟨⟨_, hrun.1.symm⟩, hrun.2.symm⟩
  · split at hrun
    · simp only [Option.some.injEq, Prod.mk.injEq] at hrun
      exact ⟨⟨_, hrun.1.symm⟩, hrun.2.symm⟩
    · split at hrun
      · exact absurd hrun (by simp)
      · rename_i staged rest hstage
        split at hrun
        · rename_i hins
          obtain ⟨r, hr, hrnone⟩ := hbad
          have hall := ((insertRows_true_iff db.claves staged).mp hins).1
          have hmapeq :=
            stageAll_map_nombre loteId db.claves rows stream staged rest hstage
          have hmem : (none : Option String) ∈ staged.map (fun t => t.nombre) := by
            rw [hmapeq]
            exact List.mem_map.mpr ⟨r, hr, hrnone⟩
          obtain ⟨t, ht, htn⟩ := List.mem_map.mp hmem
          have hsome := hall t ht
          rw [htn] at hsome
          simp at hsome
        · simp only [Option.some.injEq, Prod.mk.injEq] at hrun
          exact ⟨⟨_, hrun.1.symm⟩, hrun.2.symm⟩

/-- Witness for C2: a two-row import whose second row is missing its nombre
cell errors out and leaves the empty store empty. -/
theorem importacion_atomica_witness :
    (∃ e, (Except.error ⟨500, msgExcelFail⟩ : Except HErr ImportOk) =
      Except.error e) ∧ dbVacia = dbVacia :=
  importacion_atomica fnXlsx "L1" true true [rowAna, rowSinNombre]
    ["K1AAAAAA", "K2BBBBBB"] dbVacia (Except.error ⟨500, msgExcelFail⟩) dbVacia
    ⟨rowSinNombre, by simp, rfl⟩ rfl

/-- C9 counterexample: importing two rows when the random stream repeats a
candidate, with a spare fresh candidate still available, stages a duplicated
key; the UNIQUE constraint fires at executemany and the collision is
propagated to the caller as a fatal HTTP 500 with nothing persisted - no
regeneration of the offending key is attempted. -/
theorem colision_clave_fatal_cex :
    subir_participantes fnXlsx "L1" true true [rowAna, rowBeto]
        ["K1AAAAAA", "K1AAAAAA", "K2BBBBBB"] dbVacia =
      some (.error ⟨500, msgExcelFail⟩, dbVacia) := rfl

/-- C9 amended: when the executemany insert raises IntegrityError (in
particular on a key collision), the importer does not catch it or retry key
generation: the blanket handler surfaces a fatal HTTP 500 and the store is
unchanged. -/
theorem colision_clave_fatal (filename : List Char) (loteId : String)
    (rows : List Row) (stream : List String) (db : DB)
    (staged : List Staged) (rest : List String)
    (hfn : termina_en_xlsx filename = true)
    (hstage : stageAll loteId db.claves rows stream = some (staged, rest))
    (hins : insertRows db.claves staged = false) :
    subir_participantes filename loteId true true rows stream db =
      some (.error ⟨500, msgExcelFail⟩, db) := by
  simp [subir_participantes, hfn, hstage, hins]

/-- Witness for the amended C9 at the concrete colliding stream. -/
theorem colision_clave_fatal_witness :
    subir_participantes fnXlsx "L2" true true [rowAna, rowBeto]
        ["K9AAAAAA", "K9AAAAAA"] dbVacia =
      some (.error ⟨500, msgExcelFail⟩, dbVacia) :=
  colision_clave_fatal fnXlsx "L2" [rowAna, rowBeto]
    ["K9AAAAAA", "K9AAAAAA"] dbVacia
    [⟨"L2", some "Ana", "ana@mail.com", "K9AAAAAA"⟩,
     ⟨"L2", some "Beto", "beto@mail.com", "K9AAAAAA"⟩]
    [] (by decide) rfl rfl

/-- C1 counterexample: within one two-row batch over an empty store, a random
stream that repeats a candidate makes the generator hand out the same key
twice: the staging loop consults only the persisted key set, never the keys
already staged in the same transaction, so the generated keys of one batch
are not pairwise distinct. -/
theorem claves_intra_lote_cex :
    (stageAll "L1" dbVacia.claves [rowAna, rowBeto]
        ["K1AAAAAA", "K1AAAAAA", "K2BBBBBB"]).map
        (fun x => x.1.map (fun t => t.clave)) =
      some ["K1AAAAAA", "K1AAAAAA"] ∧
    ¬ (["K1AAAAAA", "K1AAAAAA"] : List String).Nodup :=
  ⟨rfl, by simp⟩

/-- C1 amended: each generated key avoids every key persisted at the time of
generation but not the keys staged earlier in the same batch; intra-batch
duplicates are possible and make the whole insert fail, so after any import
the persisted keys remain pairwise distinct: uniqueness across the store is
enforced by the UNIQUE constraint, not by the generator. -/
theorem claves_almacenadas_unicas (filename : List Char) (loteId : String)
    (hayNombre hayCorreo : Bool) (rows : List Row) (stream : List String)
    (db : DB) (res : Except HErr ImportOk) (db' : DB)
    (hnodup : db.claves.Nodup)
    (hrun : subir_participantes filename loteId hayNombre hayCorreo rows stream db =
      some (res, db')) :
    db'.claves.Nodup := by
  unfold subir_participantes at hrun
  split at hrun
  · simp only [Option.some.injEq, Prod.mk.injEq] at hrun
    exact hrun.2 ▸ hnodup
  · split at hrun
    · simp only [Option.some.injEq, Prod.mk.injEq] at hrun
      exact hrun.2 ▸ hnodup
    · split at hrun
      · exact absurd hrun (by simp)
      · rename_i staged rest hstage
        split at hrun
        · rename_i hins
          simp only [Option.some.injEq, Prod.mk.injEq] at hrun
          rw [← hrun.2, commitStaged_claves]
          obtain ⟨_, hkeysnodup, hfreshkeys⟩ :=
            (insertRows_true_iff db.claves staged).mp hins
          rw [List.nodup_append]
          refine ⟨hnodup, hkeysnodup, ?_⟩
          intro a ha hb
          obtain ⟨t, ht, htc⟩ := List.mem_map.mp hb
          exact (hfreshkeys t ht) (htc ▸ ha)
        · simp only [Option.some.injEq, Prod.mk.injEq] at hrun
          exact hrun.2 ▸ hnodup

/-- Witness for the amended C1: importing one row into the empty store leaves
a store whose persisted keys are pairwise distinct. -/
theorem claves_almacenadas_unicas_witness :
    (DB.mk ["L1"] [⟨1, "L1", some "Ana", "ana@mail.com", "K1AAAAAA"⟩] 2).claves.Nodup :=
  claves_almacenadas_unicas fnXlsx "L1" true true [rowAna] ["K1AAAAAA"] dbVacia
    (Except.ok ⟨msgImportOk, "L1", 1⟩)
    (DB.mk ["L1"] [⟨1, "L1", some "Ana", "ana@mail.com", "K1AAAAAA"⟩] 2)
    (by decide) rfl

/-- C6: importing a well-formed list of N rows (every nombre present, the key
generator drawing enough pairwise-distinct fresh candidates, the batch id
fresh) succeeds, reports the batch id together with the count N, creates
exactly one new batch, and persists exactly N participants referencing that
batch. -/
theorem importacion_bien_formada (filename : List Char) (loteId : String)
    (rows : List Row) (stream : List String) (db : DB)
    (hfn : termina_en_xlsx filename = true)
    (hnombres : ∀ r ∈ rows, r.nombre.isSome = true)
    (hlen : rows.length ≤ stream.length)
    (hnodup : stream.Nodup)
    (hfresh : ∀ k ∈ stream, k ∉ db.claves)
    (hlote : ∀ p ∈ db.participantes, p.lote_id ≠ loteId) :
    ∃ db', subir_participantes filename loteId true true rows stream db =
        some (.ok ⟨msgImportOk, loteId, rows.length⟩, db') ∧
      db'.lotes = db.lotes ++ [loteId] ∧
      (participantes_de db' loteId).length = rows.length := by
  obtain ⟨staged, hstage, hkeys⟩ :=
    stageAll_fresh_stream loteId db.claves rows stream hfresh hlen
  have hlenstaged : staged.length = rows.length :=
    stageAll_length loteId db.claves rows stream staged _ hstage
  have hnames : ∀ t ∈ staged, t.nombre.isSome = true := by
    intro t ht
    have hmem : t.nombre ∈ staged.map (fun t => t.nombre) :=
      List.mem_map.mpr ⟨t, ht, rfl⟩
    rw [stageAll_map_nombre loteId db.claves rows stream staged _ hstage] at hmem
    obtain ⟨r, hr, hrn⟩ := List.mem_map.mp hmem
    rw [← hrn]
    exact hnombres r hr
  have hkeysnodup : (staged.map (fun t => t.clave)).Nodup := by
    rw [hkeys]
    exact hnodup.sublist (List.take_sublist rows.length stream)
  have hfreshstaged : ∀ t ∈ staged, t.clave ∉ db.claves :=
    stageAll_claves_fresh loteId db.claves rows stream staged _ hstage
  have hins : insertRows db.claves staged = true :=
    (insertRows_true_iff db.claves staged).mpr ⟨hnames, hkeysnodup, hfreshstaged⟩
  have hlotesstaged := stageAll_lote loteId db.claves rows stream staged _ hstage
  refine ⟨commitStaged db loteId staged, ?_, rfl, ?_⟩
  · simp [subir_participantes, hfn, hstage, hins, hlenstaged]
  · rw [participantes_de, commitStaged_participantes, List.filter_append]
    have hold : db.participantes.filter (fun p => p.lote_id == loteId) = [] := by
      rw [List.filter_eq_nil_iff]
      intro p hp
      simp [hlote p hp]
    have hnew : ((List.enumFrom db.nextId staged).map
          (fun x => (⟨x.1, x.2.lote_id, x.2.nombre, x.2.correo, x.2.clave⟩ :
            Participante))).filter (fun p => p.lote_id == loteId) =
        (List.enumFrom db.nextId staged).map
          (fun x => (⟨x.1, x.2.lote_id, x.2.nombre, x.2.correo, x.2.clave⟩ :
            Participante)) := by
      rw [List.filter_eq_self]
      intro p hp
      obtain ⟨x, hx, hxp⟩ := List.mem_map.mp hp
      have hx2 : x.2 ∈ staged := by
        have := List.mem_map_of_mem Prod.snd hx
        rwa [List.enumFrom_map_snd] at this
      rw [← hxp]
      simp [hlotesstaged x.2 hx2]
    rw [hold, hnew]
    simp [hlenstaged]

/-- Witness for C6 at a concrete two-row import into the empty store. -/
theorem importacion_bien_formada_witness :
    ∃ db', subir_participantes fnXlsx "L1" true true [rowAna, rowBeto]
        ["K1AAAAAA", "K2BBBBBB"] dbVacia =
        some (.ok ⟨msgImportOk, "L1", 2⟩, db') ∧
      db'.lotes = dbVacia.lotes ++ ["L1"] ∧
      (participantes_de db' "L1").length = 2 :=
  importacion_bien_formada fnXlsx "L1" [rowAna, rowBeto]
    ["K1AAAAAA", "K2BBBBBB"] dbVacia (by decide) (by decide) (by decide)
    (by decide) (by decide) (by decide)

/-- C5: dispatching to a batch id with no participants in the store fails
with HTTP 404 and produces an empty transport trace: no connection, login or
send is ever attempted. -/
theorem lote_inexistente_404 (loteId : String) (db : DB)
    (configOk conectaOk loginOk : Bool) (sendOk : Nat → Bool)
    (h : participantes_de db loteId = []) :
    enviar_correos loteId db configOk conectaOk loginOk sendOk =
      (.error ⟨404, msgLoteNoEncontrado⟩, []) := by
  simp [enviar_correos, h]

/-- Witness for C5 at a batch id absent from the concrete store. -/
theorem lote_inexistente_404_witness :
    enviar_correos "NOPE" dbL1 true true true (fun _ => true) =
      (.error ⟨404, msgLoteNoEncontrado⟩, []) :=
  lote_inexistente_404 "NOPE" dbL1 true true true (fun _ => true) rfl

/-- C3: when the session is established, the dispatch loop visits every
participant of the batch in store order; each failed send is caught
individually without aborting the loop, the reported success count is the
number of successful sends, and the failed list holds exactly the addresses
of the failed sends in order. -/
theorem despacho_contabiliza (loteId : String) (db : DB) (sendOk : Nat → Bool)
    (hne : participantes_de db loteId ≠ []) :
    enviar_correos loteId db true true true sendOk =
      (.ok ⟨loteId,
          (List.enumFrom 0 (participantes_de db loteId)).countP
            (fun x => sendOk x.1),
          ((List.enumFrom 0 (participantes_de db loteId)).filter
            (fun x => !sendOk x.1)).map (fun x => x.2.correo)⟩,
        Ev.connect ::
          ((List.enumFrom 0 (participantes_de db loteId)).map
            (fun x => Ev.send x.2.correo (sendOk x.1)) ++ [Ev.quit])) := by
  have hemp : (participantes_de db loteId).isEmpty = false := by
    cases hps : participantes_de db loteId with
    | nil => exact absurd hps hne
    | cons a l => rfl
  simp [enviar_correos, hemp, bucle_envio_spec]

/-- Witness for C3: a batch of three where only the second send fails yields
two successes and exactly the second address reported as failed. -/
theorem despacho_contabiliza_witness :
    enviar_correos "L1" dbL1 true true true (fun i => i != 1) =
      (.ok ⟨"L1", 2, ["beto@mail.com"]⟩,
        [Ev.connect, Ev.send "ana@mail.com" true, Ev.send "beto@mail.com" false,
         Ev.send "carla@mail.com" true, Ev.quit]) := by
  rw [despacho_contabiliza "L1" dbL1 (fun i => i != 1) (by decide)]
  rfl

/-- C4 counterexample: with one participant in the batch, when the SMTP
connection opens but login fails, the dispatch aborts fatally with the trace
containing the connect and no quit: the session is not closed on this exit
path, since the source has no finally block. -/
theorem sesion_no_cerrada_cex :
    (enviar_correos "L1" dbL1 true true false (fun _ => true)).2 = [Ev.connect] ∧
      quitCount (enviar_correos "L1" dbL1 true true false (fun _ => true)).2 ≠ 1 :=
  ⟨rfl, by decide⟩

/-- C4 amended: the session is closed exactly once on normal completion,
including runs with per-recipient send failures, but when session
establishment fails after the connection is opened (starttls or login
raising) the dispatch aborts without ever closing the session. -/
theorem sesion_cierre_una_vez (loteId : String) (db : DB) (sendOk : Nat → Bool)
    (hne : participantes_de db loteId ≠ []) :
    quitCount (enviar_correos loteId db true true true sendOk).2 = 1 ∧
      quitCount (enviar_correos loteId db true true false sendOk).2 = 0 := by
  have hemp : (participantes_de db loteId).isEmpty = false := by
    cases hps : participantes_de db loteId with
    | nil => exact absurd hps hne
    | cons a l => rfl
  constructor
  · have htrace : (enviar_correos loteId db true true true sendOk).2 =
        Ev.connect :: ((List.enumFrom 0 (participantes_de db loteId)).map
          (fun x => Ev.send x.2.correo (sendOk x.1)) ++ [Ev.quit]) := by
      simp [enviar_correos, hemp, bucle_envio_spec]
    rw [htrace]
    have hzero := quitCount_send_events
      (List.enumFrom 0 (participantes_de db loteId)) sendOk
    simp only [quitCount, List.countP_cons, List.countP_append] at hzero ⊢
    simp [hzero]
  · have htrace : (enviar_correos loteId db true true false sendOk).2 =
        [Ev.connect] := by
      simp [enviar_correos, hemp]
    rw [htrace]
    rfl

/-- Witness for the amended C4: on the concrete three-participant batch the
successful run closes the session exactly once and the failed-login run never
closes it. -/
theorem sesion_cierre_una_vez_witness :
    quitCount (enviar_correos "L1" dbL1 true true true (fun _ => true)).2 = 1 ∧
      quitCount (enviar_correos "L1" dbL1 true true false (fun _ => true)).2 = 0 :=
  sesion_cierre_una_vez "L1" dbL1 (fun _ => true) (by decide)

end Certificados
